import Mathlib

/-!
Shallow embedding of the GotoSlnx converter (src/src/main.cpp): the
section-state `.sln` parser, the solution model, the folder-path resolver
and the `.slnx` output assembler, together with theorems about them.

Strings are modelled as `List Char` (`Str`); `std::map` / `std::set` are
modelled as association lists / lists kept sorted by the byte-wise
lexicographic order that `std::string`'s `operator<` uses;
`std::unordered_map` is modelled as an association list with overwrite
insertion (the code never iterates an `unordered_map` except for
`folderEntries` in `WriteSlnx`, which we determinize to the insertion
order of the projects, one entry per folder guid with overwrite).
File paths are decomposed with Windows separators (both `/` and `\`),
matching the platform the converter targets.
-/

namespace GotoSlnx

abbrev Str := List Char

def str (s : String) : Str := s.data

/-! Text utilities (`Trim`, `StartsWith`, `SplitOnce`, `SplitConfig`). -/

def IsSpace (c : Char) : Bool :=
  c = ' ' || c = '\t' || c = '\n' || c = '\r' || c = '\x0b' || c = '\x0c'

def Trim (s : Str) : Str :=
  ((s.dropWhile IsSpace).reverse.dropWhile IsSpace).reverse

def StartsWith (text pre : Str) : Bool :=
  List.isPrefixOf pre text

/-- Mirrors `SplitOnce`: split at the first occurrence of `d`; a list of
one element when `d` does not occur, two elements otherwise. -/
def SplitOnce (text : Str) (d : Char) : List Str :=
  match text.dropWhile (fun c => c != d) with
  | [] => [text]
  | _ :: tail => [text.takeWhile (fun c => c != d), tail]

/-- Mirrors `SplitConfig`: `SplitOnce` on the bar character, both parts
trimmed; the second component is empty when no bar occurs. -/
def SplitConfig (config : Str) : Str × Str :=
  match SplitOnce config '|' with
  | [single] => (Trim single, [])
  | [l, r] => (Trim l, Trim r)
  | _ => ([], [])

/-- Substring containment, mirroring `std::string::find(needle) != npos`. -/
def ContainsSub (haystack needle : Str) : Bool :=
  match haystack with
  | [] => needle.isEmpty
  | _ :: rest => List.isPrefixOf needle haystack || ContainsSub rest needle

/-- Split at the last occurrence of `d` (mirrors `rfind`); `none` when `d`
does not occur. -/
def SplitAtLastChar (s : Str) (d : Char) : Option (Str × Str) :=
  match s.reverse.dropWhile (fun c => c != d) with
  | [] => none
  | _ :: revPre => some (revPre.reverse, (s.reverse.takeWhile (fun c => c != d)).reverse)

/-! The solution model. -/

def kSolutionFolderTypeGuid : Str := str ("\x7b66A26720-8FB5-11D2-AA7E-00C04F688DDE\x7d")

structure ProjectConfigMapping where
  projectBuildType : Str := []
  projectPlatform : Str := []
  hasActive : Bool := false
  build : Bool := false
  buildSet : Bool := false
  deploy : Bool := false
  deploySet : Bool := false
deriving DecidableEq

structure ProjectEntry where
  typeGuid : Str := []
  name : Str := []
  path : Str := []
  guid : Str := []
  dependencies : List Str := []
  solutionItems : List Str := []
  configMap : List (Str × ProjectConfigMapping) := []
  isSolutionFolder : Bool := false
deriving DecidableEq

structure SolutionData where
  projects : List ProjectEntry := []
  guidToPath : List (Str × Str) := []
  guidToName : List (Str × Str) := []
  nestedProjects : List (Str × Str) := []
  solutionConfigs : List Str := []
  buildTypes : List Str := []
  platforms : List Str := []
deriving DecidableEq

/-! Ordered / unordered container operations. -/

/-- Byte-wise lexicographic order of `std::string`'s `operator<`. -/
def strLt : Str → Str → Bool
  | [], [] => false
  | [], _ :: _ => true
  | _ :: _, [] => false
  | a :: as, b :: bs =>
    if a.toNat < b.toNat then true
    else if b.toNat < a.toNat then false
    else strLt as bs

/-- Association-list lookup (key equality). -/
def alookup {α : Type} : List (Str × α) → Str → Option α
  | [], _ => none
  | (k, v) :: rest, k' => if k' = k then some v else alookup rest k'

/-- Unordered-map insertion: overwrite in place, else append. -/
def aInsert {α : Type} : List (Str × α) → Str → α → List (Str × α)
  | [], k, v => [(k, v)]
  | (k', v') :: rest, k, v =>
    if k = k' then (k, v) :: rest else (k', v') :: aInsert rest k v

/-- `std::map` insertion: keep the list sorted by `strLt`, overwrite on an
equal key. -/
def mapSet {α : Type} : List (Str × α) → Str → α → List (Str × α)
  | [], k, v => [(k, v)]
  | (k', v') :: rest, k, v =>
    if strLt k k' then (k, v) :: (k', v') :: rest
    else if strLt k' k then (k', v') :: mapSet rest k v
    else (k, v) :: rest

/-- `std::set` insertion: keep sorted, drop duplicates. -/
def setInsert : List Str → Str → List Str
  | [], x => [x]
  | y :: ys, x =>
    if strLt x y then x :: y :: ys
    else if strLt y x then y :: setInsert ys x
    else y :: ys

def updateLast {α : Type} (f : α → α) : List α → List α
  | [] => []
  | [x] => [f x]
  | x :: y :: rest => x :: updateLast f (y :: rest)

def updateFirstWhere {α : Type} (p : α → Bool) (f : α → α) : List α → List α
  | [] => []
  | x :: xs => if p x then f x :: xs else x :: updateFirstWhere p f xs

/-! Line-level extractors. -/

def DropLit (lit : Str) (s : Str) : Option Str :=
  if StartsWith s lit = true then some (s.drop lit.length) else none

def SpanNot (d : Char) (s : Str) : Str × Str :=
  (s.takeWhile (fun c => c != d), s.dropWhile (fun c => c != d))

def DropSpaces (s : Str) : Str := s.dropWhile IsSpace

/-- Mirrors `ParseProjectHeader`'s anchored regex
`Project\("\{([^}]+)\}"\)\s*=\s*"([^"]+)",\s*"([^"]+)",\s*"\{([^}]+)\}"\s*` :
every character class excludes its own terminator, so each capture is the
maximal run up to the next terminator, and every capture must be non-empty. -/
def ParseProjectHeader (line : Str) : Option ProjectEntry := do
  let s ← DropLit (str ("Project(\"\x7b")) line
  let (typeG, s) := SpanNot '}' s
  if typeG = [] then none else
  let s ← DropLit (str ("\x7d\")")) s
  let s := DropSpaces s
  let s ← DropLit (str ("=")) s
  let s := DropSpaces s
  let s ← DropLit (str ("\"")) s
  let (name, s) := SpanNot '"' s
  if name = [] then none else
  let s ← DropLit (str ("\",")) s
  let s := DropSpaces s
  let s ← DropLit (str ("\"")) s
  let (path, s) := SpanNot '"' s
  if path = [] then none else
  let s ← DropLit (str ("\",")) s
  let s := DropSpaces s
  let s ← DropLit (str ("\"\x7b")) s
  let (guidBody, s) := SpanNot '}' s
  if guidBody = [] then none else
  let s ← DropLit (str ("\x7d\"")) s
  if DropSpaces s ≠ [] then none else
  let typeGuid : Str := '{' :: typeG ++ ['}']
  some { typeGuid := typeGuid
         name := name
         path := path
         guid := '{' :: guidBody ++ ['}']
         isSolutionFolder := decide (typeGuid = kSolutionFolderTypeGuid) }

def ParseSolutionConfiguration (line : Str) (data : SolutionData) : SolutionData :=
  match SplitOnce line '=' with
  | [] => data
  | p0 :: _ =>
    let left := Trim p0
    if left = [] then data
    else
      let data := { data with solutionConfigs := setInsert data.solutionConfigs left }
      let configParts := SplitConfig left
      let data :=
        if configParts.1 ≠ [] then
          { data with buildTypes := setInsert data.buildTypes configParts.1 }
        else data
      if configParts.2 ≠ [] then
        { data with platforms := setInsert data.platforms configParts.2 }
      else data

/-- The guard chain of `ParseProjectConfiguration` (main.cpp lines 133-160):
split once on the equals sign, trim both sides, require the left side to
start with an opening brace, cut the guid at the first closing brace,
require a dot right after it, then split the rest at the LAST dot into
(solutionConfig, suffix).  Returns `(guid, solutionConfig, suffix, right)`. -/
def DecomposeProjectConfigLine (line : Str) : Option (Str × Str × Str × Str) :=
  match SplitOnce line '=' with
  | [l, r] =>
    let left := Trim l
    let right := Trim r
    if StartsWith left (str ("\x7b")) = false then none
    else
      match SpanNot '}' left with
      | (_, []) => none
      | (pre, _ :: restAfterBrace) =>
        let guid := pre ++ ['}']
        match restAfterBrace with
        | [] => none
        | c :: remainder =>
          if c ≠ '.' then none
          else
            match SplitAtLastChar remainder '.' with
            | none => none
            | some (solutionConfig, suffix) => some (guid, solutionConfig, suffix, right)
  | _ => none

/-- The per-suffix mutation of a `ProjectConfigMapping`
(main.cpp lines 171-194). -/
def ApplyConfigSuffix (suffix right : Str) (m : ProjectConfigMapping) : ProjectConfigMapping :=
  if suffix = str ("ActiveCfg") then
    let configParts := SplitConfig right
    { m with projectBuildType := configParts.1
             projectPlatform := configParts.2
             hasActive := true }
  else if StartsWith suffix (str ("Build")) then
    let m := { m with build := true, buildSet := true }
    if right ≠ [] ∧ m.hasActive = false then
      let configParts := SplitConfig right
      { m with projectBuildType := configParts.1
               projectPlatform := configParts.2
               hasActive := true }
    else m
  else if StartsWith suffix (str ("Deploy")) then
    let m := { m with deploy := true, deploySet := true }
    if right ≠ [] ∧ m.hasActive = false then
      let configParts := SplitConfig right
      { m with projectBuildType := configParts.1
               projectPlatform := configParts.2
               hasActive := true }
    else m
  else m

/-- The in-place mutation of the matched project: fetch-or-default the
mapping for `solutionConfig` (like `operator[]`), apply the suffix
branch, store it back. -/
def PPCUpdate (solutionConfig suffix right : Str) (p : ProjectEntry) : ProjectEntry :=
  let m := (alookup p.configMap solutionConfig).getD {}
  { p with configMap := mapSet p.configMap solutionConfig (ApplyConfigSuffix suffix right m) }

def ParseProjectConfiguration (line : Str) (data : SolutionData) : SolutionData :=
  match DecomposeProjectConfigLine line with
  | none => data
  | some (guid, solutionConfig, suffix, right) =>
    let data := { data with solutionConfigs := setInsert data.solutionConfigs solutionConfig }
    if data.projects.any (fun p => p.guid = guid) then
      { data with
        projects := updateFirstWhere (fun p => p.guid = guid)
          (PPCUpdate solutionConfig suffix right) data.projects }
    else data

def ParseNestedProject (line : Str) (data : SolutionData) : SolutionData :=
  match SplitOnce line '=' with
  | [l, r] =>
    let child := Trim l
    let parent := Trim r
    if child = [] ∨ parent = [] then data
    else { data with nestedProjects := aInsert data.nestedProjects child parent }
  | _ => data

/-! The section-state parser. -/

structure ParseState where
  data : SolutionData := {}
  inProject : Bool := false
  inProjectDependencies : Bool := false
  inSolutionItems : Bool := false
  inGlobalSection : Bool := false
  currentGlobalSection : Str := []
deriving DecidableEq

/-- One iteration of the `ParseSln` line loop (main.cpp lines 312-399). -/
def StepLine (st : ParseState) (line : Str) : ParseState :=
  let trimmed := Trim line
  if trimmed = [] then st
  else if st.inProject = false ∧ StartsWith trimmed (str ("Project(")) = true then
    match ParseProjectHeader trimmed with
    | some entry =>
      let data := st.data
      let data :=
        { data with
          projects := data.projects ++ [entry]
          guidToName := aInsert data.guidToName entry.guid entry.name
          guidToPath :=
            if entry.isSolutionFolder then data.guidToPath
            else aInsert data.guidToPath entry.guid entry.path }
      { st with data := data, inProject := true }
    | none => st
  else if st.inProject = true then
    if StartsWith trimmed (str ("ProjectSection(")) = true then
      if ContainsSub trimmed (str ("ProjectDependencies")) = true then
        { st with inProjectDependencies := true }
      else if ContainsSub trimmed (str ("SolutionItems")) = true then
        { st with inSolutionItems := true }
      else st
    else if StartsWith trimmed (str ("EndProjectSection")) = true then
      { st with inProjectDependencies := false, inSolutionItems := false }
    else if StartsWith trimmed (str ("EndProject")) = true then
      { st with inProject := false, inProjectDependencies := false, inSolutionItems := false }
    else if st.inProjectDependencies = true then
      match SplitOnce trimmed '=' with
      | [l, _] =>
        let dep := Trim l
        if dep = [] then st
        else
          let ps := updateLast (fun p => { p with dependencies := p.dependencies ++ [dep] }) st.data.projects
          { st with data := { st.data with projects := ps } }
      | _ => st
    else if st.inSolutionItems = true then
      match SplitOnce trimmed '=' with
      | [_, r] =>
        let item := Trim r
        if item = [] then st
        else
          let ps := updateLast (fun p => { p with solutionItems := p.solutionItems ++ [item] }) st.data.projects
          { st with data := { st.data with projects := ps } }
      | _ => st
    else st
  else if StartsWith trimmed (str ("GlobalSection(")) = true then
    let name :=
      match trimmed.findIdx? (fun c => c = '('), trimmed.findIdx? (fun c => c = ')') with
      | some s, some e => if s + 1 < e then (trimmed.drop (s + 1)).take (e - s - 1) else []
      | _, _ => []
    { st with inGlobalSection := true, currentGlobalSection := name }
  else if StartsWith trimmed (str ("EndGlobalSection")) = true then
    { st with inGlobalSection := false, currentGlobalSection := [] }
  else if st.inGlobalSection = true then
    if st.currentGlobalSection = str ("SolutionConfigurationPlatforms") then
      { st with data := ParseSolutionConfiguration trimmed st.data }
    else if st.currentGlobalSection = str ("ProjectConfigurationPlatforms") then
      { st with data := ParseProjectConfiguration trimmed st.data }
    else if st.currentGlobalSection = str ("NestedProjects") then
      { st with data := ParseNestedProject trimmed st.data }
    else st
  else st

/-- The post-pass applied to every configuration mapping
(main.cpp lines 401-414). -/
def PostPassMapping (m : ProjectConfigMapping) : ProjectConfigMapping :=
  if m.hasActive = true then
    let m := if m.buildSet = true then m else { m with build := false, buildSet := true }
    if m.deploySet = true then m else { m with deploy := false, deploySet := true }
  else m

def PostPass (data : SolutionData) : SolutionData :=
  { data with projects :=
      data.projects.map (fun p =>
        { p with configMap := p.configMap.map (fun kv => (kv.1, PostPassMapping kv.2)) }) }

/-- `ParseSln` on an already-read sequence of lines: fold the line loop,
then run the post-pass. -/
def ParseSln (lines : List Str) : SolutionData :=
  PostPass (lines.foldl StepLine {}).data

/-! The folder path resolver. -/

/-- Mirrors `NormalizeFolderPath`: start from the root slash and append
each non-empty segment, adding a slash after it unless it already ends in
one. -/
def NormalizeStep (path seg : Str) : Str :=
  if seg = [] then path
  else
    let p := path ++ seg
    if p.getLast? = some '/' then p else p ++ ['/']

def NormalizeFolderPath (segments : List Str) : Str :=
  segments.foldl NormalizeStep ['/']

/-- Mirrors the inner while-loop of `ResolveFolderPath` that splits a
parent path (leading slash already dropped, one trailing slash already
removed) back into segments at every slash; a slash as the final
character produces no trailing empty segment, but interior repeated
slashes do produce empty ones. -/
def splitSegCore : Str → Str → List Str
  | [], acc => [acc.reverse]
  | c :: rest, acc =>
    if c = '/' then
      match rest with
      | [] => [acc.reverse]
      | _ :: _ => acc.reverse :: splitSegCore rest []
    else splitSegCore rest (c :: acc)

def SplitSegments (s : Str) : List Str :=
  if s = [] then [] else splitSegCore s []

/-- The folder's own name as a segment list (the `segments` vector right
after the `guidToName` lookup in `ResolveFolderPath`). -/
def baseSegs (data : SolutionData) (folderGuid : Str) : List Str :=
  match alookup data.guidToName folderGuid with
  | some n => [n]
  | none => []

/-- The segment list after merging the resolved parent path (main.cpp
lines 245-267): a non-root parent path is stripped of its leading slash
and one trailing slash, split at every slash, and prepended; the
root-parent branch re-adds the own name when `segments` is empty and a
name exists (dead in practice, kept faithfully). -/
def combineSegs (data : SolutionData) (folderGuid : Str) (parentPath : Str) : List Str :=
  let segments := baseSegs data folderGuid
  if parentPath ≠ ['/'] then
    let trimmed := parentPath.drop 1
    let trimmed := if trimmed ≠ [] ∧ trimmed.getLast? = some '/' then trimmed.dropLast else trimmed
    if trimmed ≠ [] then SplitSegments trimmed ++ segments else segments
  else if segments = [] ∧ (alookup data.guidToName folderGuid).isSome then
    baseSegs data folderGuid
  else segments

/-- Mirrors `ResolveFolderPath` with explicit fuel for the recursion into
the parent chain; the cache is threaded through and returned, the
visiting set is restored on exit (so it is not returned).  `none` means
the fuel ran out, which `resolve_isSome` below rules out for the fuel
used by `ResolveFolderPathTop`. -/
def ResolveFolderPath :
    Nat → Str → SolutionData → List (Str × Str) → List Str → Option (Str × List (Str × Str))
  | 0, _, _, _, _ => none
  | Nat.succ fuel, folderGuid, data, cache, visiting =>
    match alookup cache folderGuid with
    | some cached => some (cached, cache)
    | none =>
      if folderGuid ∈ visiting then some (['/'], cache)
      else
        match alookup data.nestedProjects folderGuid with
        | none =>
          let path := NormalizeFolderPath (baseSegs data folderGuid)
          some (path, aInsert cache folderGuid path)
        | some parent =>
          match ResolveFolderPath fuel parent data cache (folderGuid :: visiting) with
          | none => none
          | some (parentPath, cache') =>
            let path := NormalizeFolderPath (combineSegs data folderGuid parentPath)
            some (path, aInsert cache' folderGuid path)

/-- A top-level resolver call as `WriteSlnx` performs it: fresh visiting
set, enough fuel for the whole nesting map (the fallback branch is
unreachable by `resolve_isSome`). -/
def ResolveFolderPathTop (folderGuid : Str) (data : SolutionData)
    (cache : List (Str × Str)) : Str × List (Str × Str) :=
  match ResolveFolderPath (data.nestedProjects.length + 1) folderGuid data cache [] with
  | some r => r
  | none => (['/'], cache)

/-! The output assembler. -/

inductive Xml where
  | node (tag : Str) (attrs : List (Str × Str)) (children : List Xml)

def Xml.tag : Xml → Str
  | .node t _ _ => t

def Xml.attrs : Xml → List (Str × Str)
  | .node _ a _ => a

def Xml.children : Xml → List Xml
  | .node _ _ c => c

/-- The filename component of a path under Windows path rules (`/` and
`\` are both separators), as `std::filesystem::path::filename`. -/
def FileName (p : Str) : Str :=
  (p.reverse.takeWhile (fun c => c != '/' && c != '\\')).reverse

/-- `std::filesystem::path::stem`: the filename with its last extension
removed; a lone leading dot does not start an extension, and `.` / `..`
are kept whole. -/
def FileStem (p : Str) : Str :=
  let f := FileName p
  if f = str (".") ∨ f = str ("..") then f
  else
    match SplitAtLastChar f '.' with
    | none => f
    | some ([], _) => f
    | some (stem, _) => stem

/-- Mirrors `AppendProjectXml`: the `Project` element emitted for one
non-folder project. -/
def AppendProjectXml (project : ProjectEntry) (data : SolutionData) : Xml :=
  let attrs := [(str ("Path"), project.path), (str ("Id"), project.guid)]
  let attrs :=
    if project.name ≠ [] ∧ project.name ≠ FileStem project.path then
      attrs ++ [(str ("DisplayName"), project.name)]
    else attrs
  let deps := project.dependencies.filterMap (fun depGuid =>
    (alookup data.guidToPath depGuid).map (fun p =>
      Xml.node (str ("BuildDependency")) [(str ("Project"), p)] []))
  let cfgs := project.configMap.flatMap (fun kv =>
    let solutionConfig := kv.1
    let mapping := kv.2
    if mapping.hasActive = false then []
    else
      let a :=
        if mapping.projectBuildType ≠ [] then
          [Xml.node (str ("BuildType"))
            [(str ("Solution"), solutionConfig), (str ("Project"), mapping.projectBuildType)] []]
        else []
      let b :=
        if mapping.projectPlatform ≠ [] then
          [Xml.node (str ("Platform"))
            [(str ("Solution"), solutionConfig), (str ("Project"), mapping.projectPlatform)] []]
        else []
      let c :=
        if mapping.buildSet = true then
          [Xml.node (str ("Build"))
            [(str ("Solution"), solutionConfig),
             (str ("Project"), if mapping.build = true then str ("true") else str ("false"))] []]
        else []
      let d :=
        if mapping.deploySet = true then
          [Xml.node (str ("Deploy"))
            [(str ("Solution"), solutionConfig),
             (str ("Project"), if mapping.deploy = true then str ("true") else str ("false"))] []]
        else []
      a ++ b ++ c ++ d)
  Xml.node (str ("Project")) attrs (deps ++ cfgs)

/-- Mirrors `AppendBuildTypesAndPlatforms`: the optional `Configurations`
block (absent when both sets are empty). -/
def AppendBuildTypesAndPlatforms (data : SolutionData) : List Xml :=
  if data.buildTypes = [] ∧ data.platforms = [] then []
  else
    [Xml.node (str ("Configurations")) []
      (data.buildTypes.map (fun b => Xml.node (str ("BuildType")) [(str ("Name"), b)] [])
        ++ data.platforms.map (fun p => Xml.node (str ("Platform")) [(str ("Name"), p)] []))]

/-- Append a project to the group of its folder path (`projectsByFolder`
is only ever looked up by key, never iterated, so plain association-list
order is adequate). -/
def addGroup (groups : List (Str × List ProjectEntry)) (path : Str) (p : ProjectEntry) :
    List (Str × List ProjectEntry) :=
  match alookup groups path with
  | some ps => aInsert groups path (ps ++ [p])
  | none => groups ++ [(path, [p])]

/-- The first loop of `WriteSlnx` (main.cpp lines 513-525): partition the
projects, resolving the folder path of each nested non-folder project and
indexing folder entries by guid. -/
def GroupStep (data : SolutionData)
    (acc : List (Str × Str) × List (Str × List ProjectEntry) × List (Str × ProjectEntry))
    (project : ProjectEntry) :
    List (Str × Str) × List (Str × List ProjectEntry) × List (Str × ProjectEntry) :=
  let cache := acc.1
  let groups := acc.2.1
  let folderEntries := acc.2.2
  if project.isSolutionFolder = true then
    (cache, groups, aInsert folderEntries project.guid project)
  else
    match alookup data.nestedProjects project.guid with
    | some parent =>
      let r := ResolveFolderPathTop parent data cache
      (r.2, addGroup groups r.1 project, folderEntries)
    | none => (cache, addGroup groups (str ("/")) project, folderEntries)

def GroupLoop (data : SolutionData) :
    List (Str × Str) × List (Str × List ProjectEntry) × List (Str × ProjectEntry) :=
  data.projects.foldl (GroupStep data) ([], [], [])

/-- The second loop of `WriteSlnx` (main.cpp lines 527-531): build the
ordered `filesByFolder` map from the folder entries. -/
def FilesStep (data : SolutionData)
    (acc : List (Str × Str) × List (Str × List Str)) (kv : Str × ProjectEntry) :
    List (Str × Str) × List (Str × List Str) :=
  let r := ResolveFolderPathTop kv.1 data acc.1
  (r.2, mapSet acc.2 r.1 kv.2.solutionItems)

def FilesLoop (data : SolutionData) (cache : List (Str × Str))
    (folderEntries : List (Str × ProjectEntry)) :
    List (Str × Str) × List (Str × List Str) :=
  folderEntries.foldl (FilesStep data) (cache, [])

/-- One `Folder` element (main.cpp lines 533-551): its files, then the
projects grouped under its path. -/
def MkFolderNode (data : SolutionData) (groups : List (Str × List ProjectEntry))
    (kv : Str × List Str) : Xml :=
  let files := kv.2.map (fun f => Xml.node (str ("File")) [(str ("Path"), f)] [])
  let projs := ((alookup groups kv.1).getD []).map (fun p => AppendProjectXml p data)
  Xml.node (str ("Folder")) [(str ("Name"), kv.1)] (files ++ projs)

/-- Mirrors `WriteSlnx`: the root `Solution` element of the emitted tree
(the XML declaration and file I/O are out of scope). -/
def WriteSlnx (data : SolutionData) : Xml :=
  let configs := AppendBuildTypesAndPlatforms data
  let g := GroupLoop data
  let f := FilesLoop data g.1 g.2.2
  let folders := f.2.map (MkFolderNode data g.2.1)
  let rootProjects := ((alookup g.2.1 (str ("/"))).getD []).map (fun p => AppendProjectXml p data)
  Xml.node (str ("Solution")) [] (configs ++ folders ++ rootProjects)

/-! Concrete inputs used by the claim theorems. -/

/-- The end-to-end input of the specification: one project nested under a
solution folder, one `NestedProjects` edge, an `ActiveCfg` line and a
`Build.0` line. -/
def c1Lines : List Str :=
  [ str ("Project(\"\x7bFAE04EC0-301F-11D3-BF4B-00C04F79EFBC\x7d\") = \"App\", \"App\\App.vcxproj\", \"\x7bGUID1\x7d\"")
  , str ("EndProject")
  , str ("Project(\"\x7b66A26720-8FB5-11D2-AA7E-00C04F688DDE\x7d\") = \"Src\", \"Src\", \"\x7bGUID2\x7d\"")
  , str ("EndProject")
  , str ("Global")
  , str ("GlobalSection(NestedProjects) = preSolution")
  , str ("\x7bGUID1\x7d = \x7bGUID2\x7d")
  , str ("EndGlobalSection")
  , str ("GlobalSection(ProjectConfigurationPlatforms) = postSolution")
  , str ("\x7bGUID1\x7d.Debug|x64.ActiveCfg = Debug|x64")
  , str ("\x7bGUID1\x7d.Debug|x64.Build.0 = Debug|x64")
  , str ("EndGlobalSection")
  , str ("EndGlobal")
  ]

/-- The tree the converter actually produces for `c1Lines`. -/
def c1Actual : Xml :=
  Xml.node (str ("Solution")) []
    [Xml.node (str ("Folder")) [(str ("Name"), str ("/Src/"))]
      [Xml.node (str ("Project"))
        [(str ("Path"), str ("App\\App.vcxproj")), (str ("Id"), str ("\x7bGUID1\x7d"))]
        [ Xml.node (str ("BuildType"))
            [(str ("Solution"), str ("Debug|x64")), (str ("Project"), str ("Debug"))] []
        , Xml.node (str ("Platform"))
            [(str ("Solution"), str ("Debug|x64")), (str ("Project"), str ("x64"))] []
        , Xml.node (str ("Build"))
            [(str ("Solution"), str ("Debug|x64")), (str ("Project"), str ("false"))] []
        , Xml.node (str ("Deploy"))
            [(str ("Solution"), str ("Debug|x64")), (str ("Project"), str ("false"))] []]]]

/-- Two named solution folders whose nesting edges form a two-cycle. -/
def c2data : SolutionData :=
  { guidToName := [(str ("\x7bA\x7d"), str ("A")), (str ("\x7bB\x7d"), str ("B"))]
    nestedProjects := [(str ("\x7bA\x7d"), str ("\x7bB\x7d")), (str ("\x7bB\x7d"), str ("\x7bA\x7d"))] }

/-- A non-folder project `A` nested under another non-folder project `B`:
the path `/B/` gets a grouped project but no folder entry. -/
def c4data : SolutionData :=
  { projects :=
      [ { name := str ("B"), path := str ("B.vcxproj"), guid := str ("\x7bB\x7d") }
      , { name := str ("A"), path := str ("A.vcxproj"), guid := str ("\x7bA\x7d") } ]
    guidToName := [(str ("\x7bB\x7d"), str ("B")), (str ("\x7bA\x7d"), str ("A"))]
    guidToPath := [(str ("\x7bB\x7d"), str ("B.vcxproj")), (str ("\x7bA\x7d"), str ("A.vcxproj"))]
    nestedProjects := [(str ("\x7bA\x7d"), str ("\x7bB\x7d"))] }

/-- A dependencies block containing a line without an equals sign. -/
def c5Lines : List Str :=
  [ str ("Project(\"\x7b11111111-0000-0000-0000-000000000000\x7d\") = \"A\", \"A.vcxproj\", \"\x7bAAAA\x7d\"")
  , str ("ProjectSection(ProjectDependencies) = postProject")
  , str ("FOO")
  , str ("EndProjectSection")
  , str ("EndProject")
  ]

/-- The configuration mapping stored for `(guid, solutionConfig)`: the one
held by the first project whose guid matches (the linear-scan order of
`ParseProjectConfiguration`), defaulted like `operator[]` does. -/
def ConfigOf (data : SolutionData) (g sc : Str) : ProjectConfigMapping :=
  match data.projects.find? (fun p => p.guid = g) with
  | some p => (alookup p.configMap sc).getD {}
  | none => {}

/-- A normalized folder path: begins and ends with a slash. -/
def IsNorm (s : Str) : Prop := s.head? = some '/' ∧ s.getLast? = some '/'

/-- Folding `ParseProjectConfiguration` over a sequence of section lines,
in file order. -/
def PPCFold (d : SolutionData) (lines : List Str) : SolutionData :=
  lines.foldl (fun acc l => ParseProjectConfiguration l acc) d

/-! Theorems. -/

/-! Lemmas about the lexicographic order and the container operations. -/

theorem char_toNat_inj {a b : Char} (h : a.toNat = b.toNat) : a = b :=
  Char.ext (UInt32.ext h)

theorem strLt_irrefl : ∀ a : Str, strLt a a = false
  | [] => rfl
  | c :: rest => by simp [strLt, Nat.lt_irrefl, strLt_irrefl rest]

theorem strLt_ne {a b : Str} (h : strLt a b = true) : a ≠ b := by
  intro he
  subst he
  rw [strLt_irrefl] at h
  exact Bool.noConfusion h

theorem strLt_connex : ∀ a b : Str, strLt a b = false → strLt b a = false → a = b
  | [], [], _, _ => rfl
  | [], _ :: _, h1, _ => by simp [strLt] at h1
  | _ :: _, [], _, h2 => by simp [strLt] at h2
  | a :: as, b :: bs, h1, h2 => by
    unfold strLt at h1 h2
    by_cases hab : a.toNat < b.toNat
    · simp [hab] at h1
    · by_cases hba : b.toNat < a.toNat
      · simp [hba] at h2
      · have hc : a = b :=
          char_toNat_inj (Nat.le_antisymm (Nat.le_of_not_lt hba) (Nat.le_of_not_lt hab))
        simp [hab, hba] at h1 h2
        rw [hc, strLt_connex as bs h1 h2]

theorem strLt_trans : ∀ a b c : Str, strLt a b = true → strLt b c = true → strLt a c = true
  | [], [], _, h1, _ => by simp [strLt] at h1
  | _ :: _, [], _, h1, _ => by simp [strLt] at h1
  | [], _ :: _, [], _, h2 => by simp [strLt] at h2
  | [], _ :: _, _ :: _, _, _ => by simp [strLt]
  | _ :: _, _ :: _, [], _, h2 => by simp [strLt] at h2
  | a :: as, b :: bs, c :: cs, h1, h2 => by
    unfold strLt at h1 h2 ⊢
    by_cases hab : a.toNat < b.toNat
    · by_cases hbc : b.toNat < c.toNat
      · simp [Nat.lt_trans hab hbc]
      · by_cases hcb : c.toNat < b.toNat
        · simp [hbc, hcb] at h2
        · have : b.toNat = c.toNat :=
            Nat.le_antisymm (Nat.le_of_not_lt hcb) (Nat.le_of_not_lt hbc)
          simp [this ▸ hab]
    · by_cases hba : b.toNat < a.toNat
      · simp [hab, hba] at h1
      · have he : a.toNat = b.toNat :=
          Nat.le_antisymm (Nat.le_of_not_lt hba) (Nat.le_of_not_lt hab)
        simp [hab, hba] at h1
        by_cases hbc : b.toNat < c.toNat
        · simp [he ▸ hbc]
        · by_cases hcb : c.toNat < b.toNat
          · simp [hbc, hcb] at h2
          · simp [hbc, hcb] at h2
            have hac : ¬ a.toNat < c.toNat := he ▸ hbc
            have hca : ¬ c.toNat < a.toNat := he ▸ hcb
            simp [hac, hca, strLt_trans as bs cs h1 h2]

theorem alookup_mapSet {α : Type} :
    ∀ (m : List (Str × α)) (k : Str) (v : α) (k' : Str),
      alookup (mapSet m k v) k' = if k' = k then some v else alookup m k'
  | [], k, v, k' => rfl
  | (k0, v0) :: rest, k, v, k' => by
    by_cases h1 : strLt k k0
    · simp [mapSet, h1, alookup]
    · by_cases h2 : strLt k0 k
      · have hne : k0 ≠ k := strLt_ne h2
        by_cases hk : k' = k0
        · have hk' : k' ≠ k := fun h => hne (hk ▸ h)
          simp [mapSet, h1, h2, alookup, hk, hk']
          rw [if_neg hne]
        · simp [mapSet, h1, h2, alookup, hk, alookup_mapSet rest k v k']
      · have he : k = k0 :=
          strLt_connex k k0 (Bool.eq_false_iff.mpr h1) (Bool.eq_false_iff.mpr h2)
        subst he
        by_cases hk : k' = k
        · simp [mapSet, h1, h2, alookup, hk]
        · simp [mapSet, h1, h2, alookup, hk]

theorem alookup_mem {α : Type} :
    ∀ {l : List (Str × α)} {k : Str} {v : α}, alookup l k = some v → (k, v) ∈ l
  | [], _, _, h => by simp [alookup] at h
  | (k0, v0) :: rest, k, v, h => by
    by_cases hk : k = k0
    · simp [alookup, hk] at h
      simp [hk, h]
    · simp [alookup, hk] at h
      exact List.mem_cons_of_mem _ (alookup_mem h)

theorem mem_aInsert {α : Type} :
    ∀ {l : List (Str × α)} {k : Str} {v : α} {kv : Str × α},
      kv ∈ aInsert l k v → kv = (k, v) ∨ kv ∈ l
  | [], k, v, kv, h => by simpa [aInsert] using h
  | (k0, v0) :: rest, k, v, kv, h => by
    by_cases hk : k = k0
    · simp [aInsert, hk] at h
      rcases h with h | h
      · exact Or.inl (by simp [h, hk])
      · exact Or.inr (List.mem_cons_of_mem _ h)
    · simp [aInsert, hk] at h
      rcases h with h | h
      · exact Or.inr (by simp [h])
      · rcases mem_aInsert h with h' | h'
        · exact Or.inl h'
        · exact Or.inr (List.mem_cons_of_mem _ h')

theorem mem_mapSet {α : Type} :
    ∀ {l : List (Str × α)} {k : Str} {v : α} {kv : Str × α},
      kv ∈ mapSet l k v → kv = (k, v) ∨ kv ∈ l
  | [], k, v, kv, h => by simpa [mapSet] using h
  | (k0, v0) :: rest, k, v, kv, h => by
    by_cases h1 : strLt k k0
    · simp [mapSet, h1] at h
      rcases h with h | h | h
      · exact Or.inl (by simp [h])
      · exact Or.inr (by simp [h])
      · exact Or.inr (List.mem_cons_of_mem _ h)
    · by_cases h2 : strLt k0 k
      · simp [mapSet, h1, h2] at h
        rcases h with h | h
        · exact Or.inr (by simp [h])
        · rcases mem_mapSet h with h' | h'
          · exact Or.inl h'
          · exact Or.inr (List.mem_cons_of_mem _ h')
      · simp [mapSet, h1, h2] at h
        rcases h with h | h
        · exact Or.inl (by simp [h])
        · exact Or.inr (List.mem_cons_of_mem _ h)

theorem mapSet_keys_pairwise {α : Type} :
    ∀ {m : List (Str × α)} (k : Str) (v : α),
      List.Pairwise (fun x y => strLt x y = true) (m.map Prod.fst) →
      List.Pairwise (fun x y => strLt x y = true) ((mapSet m k v).map Prod.fst)
  | [], k, v, _ => by simp [mapSet]
  | (k0, v0) :: rest, k, v, h => by
    rw [List.map_cons, List.pairwise_cons] at h
    obtain ⟨hk0, hrest⟩ := h
    by_cases h1 : strLt k k0
    · simp only [mapSet, h1, if_pos, List.map_cons]
      refine List.Pairwise.cons ?_ (List.Pairwise.cons hk0 hrest)
      intro x hx
      rcases List.mem_cons.mp hx with hx | hx
      · exact hx ▸ h1
      · exact strLt_trans _ _ _ h1 (hk0 x hx)
    · by_cases h2 : strLt k0 k
      · simp only [mapSet, h1, h2, if_neg, if_pos, List.map_cons]
        refine List.Pairwise.cons ?_ (mapSet_keys_pairwise k v hrest)
        intro x hx
        rw [List.mem_map] at hx
        obtain ⟨kv, hkv, hkvx⟩ := hx
        rcases mem_mapSet hkv with h' | h'
        · rw [← hkvx, h']
          exact h2
        · exact hk0 x (hkvx ▸ List.mem_map_of_mem Prod.fst h')
      · have he : k = k0 :=
          strLt_connex k k0 (Bool.eq_false_iff.mpr h1) (Bool.eq_false_iff.mpr h2)
        simp only [mapSet, h1, h2, if_neg, List.map_cons]
        exact List.Pairwise.cons (fun x hx => he ▸ hk0 x hx) hrest

/-! Lemmas about `SplitOnce` and the C3 theorems. -/

theorem takeWhile_append_delim (d : Char) :
    ∀ (a b : Str), (∀ c ∈ a, c ≠ d) →
      (a ++ d :: b).takeWhile (fun c => c != d) = a
  | [], b, _ => by simp [List.takeWhile_cons]
  | c :: a, b, h => by
    have hc : c ≠ d := h c (List.mem_cons_self c a)
    simp only [List.cons_append, List.takeWhile_cons, bne_iff_ne, ne_eq, hc,
      not_false_eq_true, if_pos, List.cons.injEq, true_and]
    exact takeWhile_append_delim d a b (fun x hx => h x (List.mem_cons_of_mem c hx))

theorem dropWhile_append_delim (d : Char) :
    ∀ (a b : Str), (∀ c ∈ a, c ≠ d) →
      (a ++ d :: b).dropWhile (fun c => c != d) = d :: b
  | [], b, _ => by simp [List.dropWhile_cons]
  | c :: a, b, h => by
    have hc : c ≠ d := h c (List.mem_cons_self c a)
    simp only [List.cons_append, List.dropWhile_cons, bne_iff_ne, ne_eq, hc,
      not_false_eq_true, if_pos]
    exact dropWhile_append_delim d a b (fun x hx => h x (List.mem_cons_of_mem c hx))

theorem SplitOnce_append (d : Char) (a b : Str) (h : ∀ c ∈ a, c ≠ d) :
    SplitOnce (a ++ d :: b) d = [a, b] := by
  unfold SplitOnce
  rw [dropWhile_append_delim d a b h, takeWhile_append_delim d a b h]

/-- C3 (amended): the configuration pair is split at the FIRST bar: for
any input of the form `a|rest` where `a` contains no bar, `SplitConfig`
returns `(Trim a, Trim rest)` — so for `A|B|C` the build type is `A` and
the platform is `B|C`, not `A|B` / `C`. -/
theorem c3_splitconfig_first_bar :
    ∀ a b : Str, (∀ c ∈ a, c ≠ '|') → SplitConfig (a ++ '|' :: b) = (Trim a, Trim b) := by
  intro a b h
  unfold SplitConfig
  rw [SplitOnce_append '|' a b h]

theorem c3_splitconfig_first_bar_witness :
    SplitConfig (str ("A") ++ '|' :: str ("B|C")) = (Trim (str ("A")), Trim (str ("B|C"))) :=
  c3_splitconfig_first_bar (str ("A")) (str ("B|C")) (by decide)

/-- C1: evaluating the full parse-then-emit pipeline on the end-to-end
input of the claim.  The output does contain exactly one `Folder` node
with `Name="/Src/"` holding the `App` project with its `BuildType` and
`Platform` pairings, but the `Build` child carries `Project="false"`,
not `"true"` as the claim states: the `.Build.0` key is split at its
LAST dot, so the suffix seen by the parser is `"0"`, which fails the
`StartsWith(suffix, "Build")` test (and the spurious solution
configuration `Debug|x64.Build` is registered along the way). -/
theorem c1_end_to_end_build_false : WriteSlnx (ParseSln c1Lines) = c1Actual := by rfl

/-- C2 counterexample: in the two-cycle `A -> B -> A` with registered
names, the member `A` resolves to `/B/A/`, not to `/` as the claim
states (only the re-entrant inner call returns `/`). -/
theorem c2_cycle_member_not_root :
    (ResolveFolderPathTop (str ("\x7bA\x7d")) c2data []).1 = str ("/B/A/")
      ∧ (ResolveFolderPathTop (str ("\x7bA\x7d")) c2data []).1 ≠ str ("/") := by
  exact ⟨by rfl, by decide⟩

/-- C3 counterexample: `SplitConfig` delegates to `SplitOnce`, which cuts
at the FIRST bar, so `A|B|C` splits into `(A, B|C)`, not `(A|B, C)` as
the claim (split at the last bar) would require. -/
theorem c3_splitconfig_not_last_bar :
    SplitConfig (str ("A|B|C")) = (str ("A"), str ("B|C"))
      ∧ SplitConfig (str ("A|B|C")) ≠ (str ("A|B"), str ("C")) := by
  exact ⟨by rfl, by decide⟩

/-- C4 counterexample: with a non-folder project `A` nested under the
non-folder project `B`, the grouping pass files `A` under the path
`/B/`, yet the output contains no `Folder` node at all (folder nodes are
emitted only for paths of solution-folder entries), contradicting the
claim that every path with a grouped project gets a `Folder` node. -/
theorem c4_no_folder_node_without_folder_entry :
    ((GroupLoop c4data).2.1.map Prod.fst = [str ("/"), str ("/B/")])
      ∧ (WriteSlnx c4data).children.filter (fun n => decide (n.tag = str ("Folder"))) = [] := by
  exact ⟨by rfl, by rfl⟩

/-- C5 counterexample: inside a `ProjectDependencies` section a line with
no equals sign at all (here `FOO`) is dropped, not appended to the
dependencies list as the claim states. -/
theorem c5_no_equals_line_dropped :
    (ParseSln c5Lines).projects.map (fun p => p.dependencies) = [[]]
      ∧ (ParseSln c5Lines).projects.map (fun p => p.dependencies) ≠ [[str ("FOO")]] := by
  exact ⟨by rfl, by decide⟩

/-! Lemmas about the folder path resolver. -/

theorem length_filter_le_of {α : Type} (p q : α → Bool)
    (himp : ∀ a, p a = true → q a = true) :
    ∀ l : List α, (l.filter p).length ≤ (l.filter q).length
  | [] => Nat.le_refl 0
  | a :: t => by
    cases hpa : p a
    · cases hqa : q a
      · simpa [List.filter_cons, hpa, hqa] using length_filter_le_of p q himp t
      · simp only [List.filter_cons, hpa, hqa, cond_false, cond_true, List.length_cons]
        exact Nat.le_trans (length_filter_le_of p q himp t) (Nat.le_succ _)
    · simp only [List.filter_cons, hpa, himp a hpa, cond_true, List.length_cons]
      exact Nat.succ_le_succ (length_filter_le_of p q himp t)

theorem length_filter_lt_of {α : Type} (p q : α → Bool)
    (himp : ∀ a, p a = true → q a = true) (x : α) (hqx : q x = true) (hpx : p x = false) :
    ∀ l : List α, x ∈ l → (l.filter p).length < (l.filter q).length
  | [], hx => absurd hx (List.not_mem_nil x)
  | a :: t, hx => by
    rcases List.mem_cons.mp hx with h | h
    · subst h
      simp only [List.filter_cons, hpx, hqx, cond_false, cond_true, List.length_cons]
      exact Nat.lt_succ_of_le (length_filter_le_of p q himp t)
    · cases hpa : p a
      · cases hqa : q a
        · simpa [List.filter_cons, hpa, hqa] using length_filter_lt_of p q himp x hqx hpx t h
        · simp only [List.filter_cons, hpa, hqa, cond_false, cond_true, List.length_cons]
          exact Nat.lt_succ_of_lt (length_filter_lt_of p q himp x hqx hpx t h)
      · simp only [List.filter_cons, hpa, himp a hpa, cond_true, List.length_cons]
        exact Nat.succ_lt_succ (length_filter_lt_of p q himp x hqx hpx t h)

theorem alookup_some_key_mem {α : Type} {l : List (Str × α)} {k : Str} {v : α}
    (h : alookup l k = some v) : k ∈ l.map Prod.fst :=
  List.mem_map_of_mem Prod.fst (alookup_mem h)

/-- Enough fuel makes `ResolveFolderPath` succeed: each recursion step
consumes one nesting key that was not yet in the visiting set. -/
theorem resolve_isSome :
    ∀ (fuel : Nat) (data : SolutionData) (g : Str) (cache : List (Str × Str)) (visiting : List Str),
      ((data.nestedProjects.map Prod.fst).filter (fun k => decide (¬ k ∈ visiting))).length < fuel →
      (ResolveFolderPath fuel g data cache visiting).isSome = true
  | 0, _, _, _, _, h => absurd h (Nat.not_lt_zero _)
  | Nat.succ fuel, data, g, cache, visiting, h => by
    unfold ResolveFolderPath
    cases hc : alookup cache g with
    | some v => simp [hc]
    | none =>
      simp only [hc]
      by_cases hv : g ∈ visiting
      · simp [hv]
      · simp only [if_neg hv]
        cases hp : alookup data.nestedProjects g with
        | none => simp [hp]
        | some parent =>
          simp only [hp]
          have hgk : g ∈ data.nestedProjects.map Prod.fst := alookup_some_key_mem hp
          have hlt := length_filter_lt_of
            (fun k => decide (¬ k ∈ g :: visiting)) (fun k => decide (¬ k ∈ visiting))
            (fun a ha => by
              simp only [decide_eq_true_eq, List.mem_cons, not_or] at ha ⊢
              exact ha.2)
            g (by simp [hv]) (by simp)
            (data.nestedProjects.map Prod.fst) hgk
          have hrec := resolve_isSome fuel data parent cache (g :: visiting)
            (Nat.lt_of_lt_of_le hlt (Nat.le_of_lt_succ h))
          cases hr : ResolveFolderPath fuel parent data cache (g :: visiting) with
          | none => rw [hr] at hrec; simp at hrec
          | some pr =>
            cases pr
            simp [hr]

theorem NormalizeStep_isNorm {acc : Str} (seg : Str) (h : IsNorm acc) :
    IsNorm (NormalizeStep acc seg) := by
  obtain ⟨hh, hl⟩ := h
  unfold NormalizeStep
  by_cases hs : seg = []
  · simp only [hs, if_pos]
    exact ⟨hh, hl⟩
  · simp only [hs, if_neg, not_false_eq_true]
    cases acc with
    | nil => simp at hh
    | cons c t =>
      simp only [List.head?_cons, Option.some.injEq] at hh
      subst hh
      by_cases he : ((('/' :: t) ++ seg).getLast? = some '/')
      · simp only [he, if_pos]
        exact ⟨rfl, he⟩
      · simp only [he, if_neg, not_false_eq_true]
        exact ⟨rfl, List.getLast?_concat _⟩

theorem foldl_NormalizeStep_isNorm :
    ∀ (segs : List Str) (acc : Str), IsNorm acc → IsNorm (segs.foldl NormalizeStep acc)
  | [], _, h => h
  | s :: segs, acc, h =>
    foldl_NormalizeStep_isNorm segs (NormalizeStep acc s) (NormalizeStep_isNorm s h)

theorem NormalizeFolderPath_isNorm (segs : List Str) : IsNorm (NormalizeFolderPath segs) :=
  foldl_NormalizeStep_isNorm segs ['/'] ⟨rfl, rfl⟩

theorem mem_aInsert_norm {cache : List (Str × Str)} {k v : Str}
    (hc : ∀ kv ∈ cache, IsNorm kv.2) (hv : IsNorm v) :
    ∀ kv ∈ aInsert cache k v, IsNorm kv.2 := by
  intro kv hkv
  rcases mem_aInsert hkv with h | h
  · rw [h]
    exact hv
  · exact hc kv h

/-- Every path `ResolveFolderPath` produces (and every path it caches) is
normalized: it begins and ends with a slash. -/
theorem resolve_norm :
    ∀ (fuel : Nat) (data : SolutionData) (g : Str) (cache : List (Str × Str))
      (visiting : List Str) (r : Str) (c' : List (Str × Str)),
      (∀ kv ∈ cache, IsNorm kv.2) →
      ResolveFolderPath fuel g data cache visiting = some (r, c') →
      IsNorm r ∧ ∀ kv ∈ c', IsNorm kv.2
  | 0, _, _, _, _, _, _, _, heq => by simp [ResolveFolderPath] at heq
  | Nat.succ fuel, data, g, cache, visiting, r, c', hcache, heq => by
    unfold ResolveFolderPath at heq
    cases hc : alookup cache g with
    | some v =>
      simp only [hc, Option.some.injEq, Prod.mk.injEq] at heq
      obtain ⟨h1, h2⟩ := heq
      subst h1; subst h2
      exact ⟨hcache _ (alookup_mem hc), hcache⟩
    | none =>
      simp only [hc] at heq
      by_cases hv : g ∈ visiting
      · simp only [if_pos hv, Option.some.injEq, Prod.mk.injEq] at heq
        obtain ⟨h1, h2⟩ := heq
        subst h1; subst h2
        exact ⟨⟨rfl, rfl⟩, hcache⟩
      · simp only [if_neg hv] at heq
        cases hp : alookup data.nestedProjects g with
        | none =>
          simp only [hp, Option.some.injEq, Prod.mk.injEq] at heq
          obtain ⟨h1, h2⟩ := heq
          subst h1; subst h2
          exact ⟨NormalizeFolderPath_isNorm _,
            mem_aInsert_norm hcache (NormalizeFolderPath_isNorm _)⟩
        | some parent =>
          simp only [hp] at heq
          cases hr : ResolveFolderPath fuel parent data cache (g :: visiting) with
          | none =>
            simp only [hr] at heq
            exact Option.noConfusion heq
          | some pr =>
            obtain ⟨parentPath, cache'⟩ := pr
            obtain ⟨hnormp, hcch⟩ := resolve_norm fuel data parent cache (g :: visiting)
              parentPath cache' hcache hr
            simp only [hr, Option.some.injEq, Prod.mk.injEq] at heq
            obtain ⟨h1, h2⟩ := heq
            subst h1; subst h2
            exact ⟨NormalizeFolderPath_isNorm _,
              mem_aInsert_norm hcch (NormalizeFolderPath_isNorm _)⟩

/-- With no registered names at all, every resolved path (and every
cached path) is the root. -/
theorem resolve_unnamed :
    ∀ (fuel : Nat) (data : SolutionData) (g : Str) (cache : List (Str × Str))
      (visiting : List Str) (r : Str) (c' : List (Str × Str)),
      data.guidToName = [] →
      (∀ kv ∈ cache, kv.2 = ['/']) →
      ResolveFolderPath fuel g data cache visiting = some (r, c') →
      r = ['/'] ∧ ∀ kv ∈ c', kv.2 = ['/']
  | 0, _, _, _, _, _, _, _, _, heq => by simp [ResolveFolderPath] at heq
  | Nat.succ fuel, data, g, cache, visiting, r, c', hname, hcache, heq => by
    have hbase : baseSegs data g = [] := by
      unfold baseSegs
      rw [hname]
      rfl
    unfold ResolveFolderPath at heq
    cases hc : alookup cache g with
    | some v =>
      simp only [hc, Option.some.injEq, Prod.mk.injEq] at heq
      obtain ⟨h1, h2⟩ := heq
      subst h1; subst h2
      exact ⟨hcache _ (alookup_mem hc), hcache⟩
    | none =>
      simp only [hc] at heq
      by_cases hv : g ∈ visiting
      · simp only [if_pos hv, Option.some.injEq, Prod.mk.injEq] at heq
        obtain ⟨h1, h2⟩ := heq
        subst h1; subst h2
        exact ⟨rfl, hcache⟩
      · simp only [if_neg hv] at heq
        cases hp : alookup data.nestedProjects g with
        | none =>
          simp only [hp, hbase, Option.some.injEq, Prod.mk.injEq] at heq
          obtain ⟨h1, h2⟩ := heq
          subst h1; subst h2
          refine ⟨rfl, ?_⟩
          intro kv hkv
          rcases mem_aInsert hkv with h | h
          · subst h
            rfl
          · exact hcache kv h
        | some parent =>
          simp only [hp] at heq
          cases hr : ResolveFolderPath fuel parent data cache (g :: visiting) with
          | none =>
            simp only [hr] at heq
            exact Option.noConfusion heq
          | some pr =>
            obtain ⟨parentPath, cache'⟩ := pr
            obtain ⟨hpr, hcch⟩ := resolve_unnamed fuel data parent cache (g :: visiting)
              parentPath cache' hname hcache hr
            subst hpr
            have hcomb : combineSegs data g ['/'] = [] := by
              simp [combineSegs, hbase, hname, alookup]
            simp only [hr, hcomb, Option.some.injEq, Prod.mk.injEq] at heq
            obtain ⟨h1, h2⟩ := heq
            subst h1; subst h2
            refine ⟨rfl, ?_⟩
            intro kv hkv
            rcases mem_aInsert hkv with h | h
            · subst h
              rfl
            · exact hcch kv h

/-- C2 (amended): resolving any identifier terminates without error, for
self-referential and cyclic nesting chains included; when no identifier
has a registered name every member resolves to `/`, but a cycle member
with registered names resolves to the normalized join of the names
collected before the cycle closed (e.g. `/B/A/`), not to `/`. -/
theorem resolveTop_isSome (data : SolutionData) (g : Str) :
    (ResolveFolderPath (data.nestedProjects.length + 1) g data [] []).isSome = true := by
  have hfuel :
      ((data.nestedProjects.map Prod.fst).filter (fun k => decide (¬ k ∈ ([] : List Str)))).length
        < data.nestedProjects.length + 1 := by
    have hle : ((data.nestedProjects.map Prod.fst).filter
        (fun k => decide (¬ k ∈ ([] : List Str)))).length
        ≤ (data.nestedProjects.map Prod.fst).length := List.length_filter_le _ _
    rw [List.length_map] at hle
    exact Nat.lt_succ_of_le hle
  exact resolve_isSome (data.nestedProjects.length + 1) data g [] [] hfuel

theorem c2_cycle_resolution_terminates :
    ∀ (data : SolutionData) (g : Str),
      (ResolveFolderPath (data.nestedProjects.length + 1) g data [] []).isSome = true
        ∧ (data.guidToName = [] → (ResolveFolderPathTop g data []).1 = str ("/")) := by
  intro data g
  have hsome := resolveTop_isSome data g
  refine ⟨hsome, ?_⟩
  intro hname
  unfold ResolveFolderPathTop
  cases hr : ResolveFolderPath (data.nestedProjects.length + 1) g data [] [] with
  | none => rw [hr] at hsome; simp at hsome
  | some pr =>
    have hu := resolve_unnamed (data.nestedProjects.length + 1) data g [] [] pr.1 pr.2
      hname (by intro kv hkv; simp at hkv) (by rw [hr])
    simpa [str] using hu.1

theorem c2_cycle_resolution_terminates_witness :
    (ResolveFolderPath (c2data.nestedProjects.length + 1) (str ("\x7bA\x7d")) c2data [] []).isSome
      = true :=
  (c2_cycle_resolution_terminates c2data (str ("\x7bA\x7d"))).1

/-- C8: the resolver's contract: every resolved path begins and ends
with a slash, and an identifier with no registered name and no nesting
edge resolves to exactly `/`. -/
theorem c8_resolver_normalized :
    ∀ (data : SolutionData) (g : Str),
      ((ResolveFolderPathTop g data []).1.head? = some '/'
          ∧ (ResolveFolderPathTop g data []).1.getLast? = some '/')
        ∧ (alookup data.guidToName g = none → alookup data.nestedProjects g = none →
            (ResolveFolderPathTop g data []).1 = str ("/")) := by
  intro data g
  constructor
  · unfold ResolveFolderPathTop
    cases hr : ResolveFolderPath (data.nestedProjects.length + 1) g data [] [] with
    | none => exact ⟨rfl, rfl⟩
    | some pr =>
      exact (resolve_norm _ data g [] [] pr.1 pr.2 (by intro kv hkv; simp at hkv)
        (by rw [hr])).1
  · intro hname hnest
    unfold ResolveFolderPathTop ResolveFolderPath
    simp [alookup, hname, hnest, NormalizeFolderPath, baseSegs, str]

theorem c8_resolver_normalized_witness :
    (ResolveFolderPathTop (str ("\x7bZ\x7d")) c2data []).1 = str ("/") :=
  (c8_resolver_normalized c2data (str ("\x7bZ\x7d"))).2 (by rfl) (by rfl)

/-! Lemmas about `ParseProjectConfiguration` and the per-configuration
mappings (claims C6, C7, C10). -/

theorem updateFirstWhere_guid_map (p : ProjectEntry → Bool) (f : ProjectEntry → ProjectEntry)
    (hf : ∀ x, (f x).guid = x.guid) :
    ∀ l : List ProjectEntry,
      (updateFirstWhere p f l).map (fun x => x.guid) = l.map (fun x => x.guid)
  | [] => rfl
  | x :: xs => by
    by_cases hx : p x = true
    · simp [updateFirstWhere, hx, hf]
    · simp [updateFirstWhere, hx, updateFirstWhere_guid_map p f hf xs]

/-- `ParseProjectConfiguration` never adds, removes or renames projects. -/
theorem PPC_projects_guid (line : Str) (data : SolutionData) :
    (ParseProjectConfiguration line data).projects.map (fun x => x.guid)
      = data.projects.map (fun x => x.guid) := by
  unfold ParseProjectConfiguration
  cases hd : DecomposeProjectConfigLine line with
  | none => rfl
  | some t =>
    obtain ⟨g, sc, suf, r⟩ := t
    simp only [hd]
    split
    · exact updateFirstWhere_guid_map (fun p => p.guid = g) (PPCUpdate sc suf r)
        (fun x => rfl) data.projects
    · rfl

theorem ConfigOf_projects_eq {d d' : SolutionData} (h : d'.projects = d.projects)
    (g sc : Str) : ConfigOf d' g sc = ConfigOf d g sc := by
  unfold ConfigOf
  rw [h]

theorem any_guid_of_map_eq {l l' : List ProjectEntry}
    (h : l'.map (fun x => x.guid) = l.map (fun x => x.guid)) (g : Str) :
    l'.any (fun p => p.guid = g) = l.any (fun p => p.guid = g) := by
  have key : ∀ m : List ProjectEntry,
      m.any (fun p => p.guid = g) = (m.map (fun x => x.guid)).any (fun x => x = g) := by
    intro m
    induction m with
    | nil => rfl
    | cons x xs ih => simp [ih]
  rw [key, key, h]

theorem find?_updateFirstWhere_eq (p : ProjectEntry → Bool) (f : ProjectEntry → ProjectEntry)
    (hpf : ∀ x, p (f x) = p x) :
    ∀ l : List ProjectEntry, (updateFirstWhere p f l).find? p = (l.find? p).map f
  | [] => rfl
  | x :: xs => by
    simp only [updateFirstWhere]
    by_cases hx : p x = true
    · have hfx : p (f x) = true := (hpf x).trans hx
      rw [if_pos hx, List.find?_cons_of_pos _ hfx, List.find?_cons_of_pos _ hx,
        Option.map_some']
    · rw [if_neg hx, List.find?_cons_of_neg _ hx, List.find?_cons_of_neg _ hx]
      exact find?_updateFirstWhere_eq p f hpf xs

theorem find?_updateFirstWhere_ne (p q : ProjectEntry → Bool) (f : ProjectEntry → ProjectEntry)
    (hqf : ∀ x, q (f x) = q x) (hpq : ∀ x, p x = true → q x = false) :
    ∀ l : List ProjectEntry, (updateFirstWhere p f l).find? q = l.find? q
  | [] => rfl
  | x :: xs => by
    simp only [updateFirstWhere]
    by_cases hx : p x = true
    · have hq : ¬ q x = true := fun h => by rw [hpq x hx] at h; exact Bool.noConfusion h
      have hqfx : ¬ q (f x) = true := fun h => hq ((hqf x) ▸ h)
      rw [if_pos hx, List.find?_cons_of_neg _ hqfx, List.find?_cons_of_neg _ hq]
    · rw [if_neg hx]
      by_cases hqx : q x = true
      · rw [List.find?_cons_of_pos _ hqx, List.find?_cons_of_pos _ hqx]
      · rw [List.find?_cons_of_neg _ hqx, List.find?_cons_of_neg _ hqx]
        exact find?_updateFirstWhere_ne p q f hqf hpq xs

theorem PPC_projects_found (line : Str) (data : SolutionData) (g' sc' suf r : Str)
    (hd : DecomposeProjectConfigLine line = some (g', sc', suf, r))
    (hany : data.projects.any (fun p => p.guid = g') = true) :
    (ParseProjectConfiguration line data).projects
      = updateFirstWhere (fun p => p.guid = g') (PPCUpdate sc' suf r) data.projects := by
  unfold ParseProjectConfiguration
  simp only [hd]
  rw [if_pos hany]

/-- How one `ProjectConfigurationPlatforms` line transforms the stored
mapping of an arbitrary key `(g, sc)`: only the key the line addresses
changes, and it changes by `ApplyConfigSuffix`. -/
theorem ConfigOf_PPC (line : Str) (data : SolutionData) (g g' sc sc' suf r : Str)
    (hd : DecomposeProjectConfigLine line = some (g', sc', suf, r))
    (hany : data.projects.any (fun p => p.guid = g') = true) :
    ConfigOf (ParseProjectConfiguration line data) g sc =
      if g = g' ∧ sc = sc' then ApplyConfigSuffix suf r (ConfigOf data g sc)
      else ConfigOf data g sc := by
  unfold ConfigOf
  rw [PPC_projects_found line data g' sc' suf r hd hany]
  by_cases hgg : g = g'
  · subst hgg
    rw [find?_updateFirstWhere_eq (fun p => p.guid = g) (PPCUpdate sc' suf r) (fun x => rfl)]
    cases hf : data.projects.find? (fun p => p.guid = g) with
    | none =>
      rw [List.find?_eq_none] at hf
      rw [List.any_eq_true] at hany
      obtain ⟨x, hx, hpx⟩ := hany
      exact absurd hpx (hf x hx)
    | some p0 =>
      simp only [Option.map_some', PPCUpdate, alookup_mapSet]
      by_cases hsc : sc = sc'
      · subst hsc
        simp
      · simp [hsc]
  · rw [find?_updateFirstWhere_ne (fun p => p.guid = g') (fun p => p.guid = g)
      (PPCUpdate sc' suf r) (fun x => rfl)
      (fun x hx => by
        simp only [decide_eq_true_eq] at hx
        simp only [decide_eq_false_iff_not]
        rw [hx]
        exact fun h => hgg h.symm)]
    rw [if_neg (fun hk => hgg hk.1)]

theorem PPC_projects_not_found (line : Str) (data : SolutionData) (g' sc' suf r : Str)
    (hd : DecomposeProjectConfigLine line = some (g', sc', suf, r))
    (hany : data.projects.any (fun p => p.guid = g') = false) :
    (ParseProjectConfiguration line data).projects = data.projects := by
  unfold ParseProjectConfiguration
  simp only [hd]
  rw [if_neg]
  rw [hany]
  exact Bool.false_ne_true

theorem PPC_none (line : Str) (data : SolutionData)
    (hd : DecomposeProjectConfigLine line = none) :
    ParseProjectConfiguration line data = data := by
  unfold ParseProjectConfiguration
  simp only [hd]

theorem Apply_activecfg (r : Str) (m : ProjectConfigMapping) :
    (ApplyConfigSuffix (str ("ActiveCfg")) r m).hasActive = true := by
  unfold ApplyConfigSuffix
  simp

theorem Apply_hasActive_mono (suf r : Str) (m : ProjectConfigMapping)
    (h : m.hasActive = true) : (ApplyConfigSuffix suf r m).hasActive = true := by
  unfold ApplyConfigSuffix
  by_cases h1 : suf = str ("ActiveCfg")
  · simp [h1]
  · by_cases h2 : StartsWith suf (str ("Build")) = true
    · simp [h1, h2, h]
    · by_cases h3 : StartsWith suf (str ("Deploy")) = true
      · simp [h1, h2, h3, h]
      · simp [h1, h2, h3, h]

theorem build_suffix_ne_activecfg {suf : Str}
    (hsuf : StartsWith suf (str ("Build")) = true ∨ StartsWith suf (str ("Deploy")) = true) :
    suf ≠ str ("ActiveCfg") := by
  intro he
  subst he
  rcases hsuf with h | h
  · exact absurd h (by decide)
  · exact absurd h (by decide)

/-- A `Build`/`Deploy` line applied to a mapping that already has an
active configuration leaves the three populated fields unchanged. -/
theorem Apply_build_keeps (suf r : Str) (m : ProjectConfigMapping)
    (hact : m.hasActive = true)
    (hsuf : StartsWith suf (str ("Build")) = true ∨ StartsWith suf (str ("Deploy")) = true) :
    (ApplyConfigSuffix suf r m).projectBuildType = m.projectBuildType
      ∧ (ApplyConfigSuffix suf r m).projectPlatform = m.projectPlatform
      ∧ (ApplyConfigSuffix suf r m).hasActive = m.hasActive := by
  have hne := build_suffix_ne_activecfg hsuf
  unfold ApplyConfigSuffix
  by_cases h2 : StartsWith suf (str ("Build")) = true
  · simp [hne, h2, hact]
  · by_cases h3 : StartsWith suf (str ("Deploy")) = true
    · simp [hne, h2, h3, hact]
    · rcases hsuf with h | h
      · exact absurd h h2
      · exact absurd h h3

/-- A `Build`/`Deploy` line with an empty right-hand side never touches
the three populated fields. -/
theorem Apply_empty_keeps (suf : Str) (m : ProjectConfigMapping)
    (hsuf : StartsWith suf (str ("Build")) = true ∨ StartsWith suf (str ("Deploy")) = true) :
    (ApplyConfigSuffix suf [] m).projectBuildType = m.projectBuildType
      ∧ (ApplyConfigSuffix suf [] m).projectPlatform = m.projectPlatform
      ∧ (ApplyConfigSuffix suf [] m).hasActive = m.hasActive := by
  have hne := build_suffix_ne_activecfg hsuf
  unfold ApplyConfigSuffix
  by_cases h2 : StartsWith suf (str ("Build")) = true
  · simp [hne, h2]
  · by_cases h3 : StartsWith suf (str ("Deploy")) = true
    · simp [hne, h2, h3]
    · rcases hsuf with h | h
      · exact absurd h h2
      · exact absurd h h3

/-- A `Build`/`Deploy` line with a non-empty right-hand side populates
the mapping when it has no active configuration yet. -/
theorem Apply_build_populates (suf r : Str) (m : ProjectConfigMapping)
    (hsuf : StartsWith suf (str ("Build")) = true ∨ StartsWith suf (str ("Deploy")) = true)
    (hr : r ≠ []) (hact : m.hasActive = false) :
    (ApplyConfigSuffix suf r m).projectBuildType = (SplitConfig r).1
      ∧ (ApplyConfigSuffix suf r m).projectPlatform = (SplitConfig r).2
      ∧ (ApplyConfigSuffix suf r m).hasActive = true := by
  have hne := build_suffix_ne_activecfg hsuf
  unfold ApplyConfigSuffix
  by_cases h2 : StartsWith suf (str ("Build")) = true
  · simp [hne, h2, hact, hr]
  · by_cases h3 : StartsWith suf (str ("Deploy")) = true
    · simp [hne, h2, h3, hact, hr]
    · rcases hsuf with h | h
      · exact absurd h h2
      · exact absurd h h3

theorem hasActive_mono_PPC (line : Str) (data : SolutionData) (g sc : Str)
    (h : (ConfigOf data g sc).hasActive = true) :
    (ConfigOf (ParseProjectConfiguration line data) g sc).hasActive = true := by
  cases hd : DecomposeProjectConfigLine line with
  | none => rw [PPC_none line data hd]; exact h
  | some t =>
    obtain ⟨g', sc', suf, r⟩ := t
    cases hany : data.projects.any (fun p => p.guid = g') with
    | false =>
      rw [ConfigOf_projects_eq (PPC_projects_not_found line data g' sc' suf r hd hany) g sc]
      exact h
    | true =>
      rw [ConfigOf_PPC line data g g' sc sc' suf r hd hany]
      by_cases hkey : g = g' ∧ sc = sc'
      · rw [if_pos hkey]
        exact Apply_hasActive_mono _ _ _ h
      · rw [if_neg hkey]
        exact h

theorem PPCFold_guid : ∀ (lines : List Str) (d : SolutionData),
    (PPCFold d lines).projects.map (fun x => x.guid) = d.projects.map (fun x => x.guid)
  | [], _ => rfl
  | l :: ls, d => (PPCFold_guid ls (ParseProjectConfiguration l d)).trans
      (PPC_projects_guid l d)

theorem PPCFold_hasActive_mono : ∀ (lines : List Str) (d : SolutionData) (g sc : Str),
    (ConfigOf d g sc).hasActive = true → (ConfigOf (PPCFold d lines) g sc).hasActive = true
  | [], _, _, _, h => h
  | l :: ls, d, g, sc, h =>
    PPCFold_hasActive_mono ls (ParseProjectConfiguration l d) g sc
      (hasActive_mono_PPC l d g sc h)

/-- C7: an `ActiveCfg` line, once processed for a key, fixes
`projectBuildType` / `projectPlatform` / `hasActive` against every later
`Build`- or `Deploy`-suffixed line for the same key: such a line leaves
all three fields unchanged, whatever other configuration lines came in
between. -/
theorem c7_activecfg_precedence :
    ∀ (d0 : SolutionData) (pre1 pre2 : List Str) (aLine bLine : Str)
      (g sc suf ra rb : Str),
      DecomposeProjectConfigLine aLine = some (g, sc, str ("ActiveCfg"), ra) →
      DecomposeProjectConfigLine bLine = some (g, sc, suf, rb) →
      (StartsWith suf (str ("Build")) = true ∨ StartsWith suf (str ("Deploy")) = true) →
      d0.projects.any (fun p => p.guid = g) = true →
      ((ConfigOf (ParseProjectConfiguration bLine (PPCFold d0 (pre1 ++ aLine :: pre2))) g sc).projectBuildType
          = (ConfigOf (PPCFold d0 (pre1 ++ aLine :: pre2)) g sc).projectBuildType
        ∧ (ConfigOf (ParseProjectConfiguration bLine (PPCFold d0 (pre1 ++ aLine :: pre2))) g sc).projectPlatform
          = (ConfigOf (PPCFold d0 (pre1 ++ aLine :: pre2)) g sc).projectPlatform
        ∧ (ConfigOf (ParseProjectConfiguration bLine (PPCFold d0 (pre1 ++ aLine :: pre2))) g sc).hasActive
          = (ConfigOf (PPCFold d0 (pre1 ++ aLine :: pre2)) g sc).hasActive) := by
  intro d0 pre1 pre2 aLine bLine g sc suf ra rb hda hdb hsuf hany0
  have hsplit : PPCFold d0 (pre1 ++ aLine :: pre2)
      = PPCFold (ParseProjectConfiguration aLine (PPCFold d0 pre1)) pre2 := by
    unfold PPCFold
    rw [List.foldl_append]
    rfl
  have hany1 : (PPCFold d0 pre1).projects.any (fun p => p.guid = g) = true := by
    rw [any_guid_of_map_eq (PPCFold_guid pre1 d0) g]
    exact hany0
  have hact2 : (ConfigOf (ParseProjectConfiguration aLine (PPCFold d0 pre1)) g sc).hasActive
      = true := by
    rw [ConfigOf_PPC aLine (PPCFold d0 pre1) g g sc sc (str ("ActiveCfg")) ra hda hany1,
      if_pos ⟨rfl, rfl⟩]
    exact Apply_activecfg ra _
  have hact3 : (ConfigOf (PPCFold d0 (pre1 ++ aLine :: pre2)) g sc).hasActive = true := by
    rw [hsplit]
    exact PPCFold_hasActive_mono pre2 _ g sc hact2
  have hany3 : (PPCFold d0 (pre1 ++ aLine :: pre2)).projects.any (fun p => p.guid = g) = true := by
    rw [any_guid_of_map_eq (PPCFold_guid (pre1 ++ aLine :: pre2) d0) g]
    exact hany0
  rw [ConfigOf_PPC bLine (PPCFold d0 (pre1 ++ aLine :: pre2)) g g sc sc suf rb hdb hany3,
    if_pos ⟨rfl, rfl⟩]
  exact Apply_build_keeps suf rb _ hact3 hsuf

theorem c7_activecfg_precedence_witness :
    (ConfigOf (ParseProjectConfiguration (str ("\x7bG\x7d.Debug|x64.Build = Release|ARM"))
        (PPCFold { projects := [{ guid := str ("\x7bG\x7d") }] }
          ([] ++ str ("\x7bG\x7d.Debug|x64.ActiveCfg = Debug|x64") :: [])))
      (str ("\x7bG\x7d")) (str ("Debug|x64"))).projectBuildType
      = (ConfigOf (PPCFold { projects := [{ guid := str ("\x7bG\x7d") }] }
          ([] ++ str ("\x7bG\x7d.Debug|x64.ActiveCfg = Debug|x64") :: []))
        (str ("\x7bG\x7d")) (str ("Debug|x64"))).projectBuildType :=
  (c7_activecfg_precedence { projects := [{ guid := str ("\x7bG\x7d") }] } [] []
    (str ("\x7bG\x7d.Debug|x64.ActiveCfg = Debug|x64"))
    (str ("\x7bG\x7d.Debug|x64.Build = Release|ARM"))
    (str ("\x7bG\x7d")) (str ("Debug|x64")) (str ("Build"))
    (str ("Debug|x64")) (str ("Release|ARM"))
    (by rfl) (by rfl) (Or.inl (by rfl)) (by rfl)).1

/-- C10: the populate guard of a `Build`/`Deploy` line tests only
`hasActive` and non-emptiness of the right-hand value: a `Build` line
with a non-empty right-hand value populates the mapping and sets
`hasActive`, after which a `Deploy` line for the same key never
populates, even though no `ActiveCfg` line was ever processed; and a
`Build`/`Deploy` line with an empty right-hand value never populates at
all. -/
theorem c10_build_deploy_guard :
    (∀ (d : SolutionData) (bLine dLine : Str) (g sc sufB sufD rB rD : Str),
      DecomposeProjectConfigLine bLine = some (g, sc, sufB, rB) →
      StartsWith sufB (str ("Build")) = true → rB ≠ [] →
      DecomposeProjectConfigLine dLine = some (g, sc, sufD, rD) →
      StartsWith sufD (str ("Deploy")) = true →
      d.projects.any (fun p => p.guid = g) = true →
      (ConfigOf d g sc).hasActive = false →
      ((ConfigOf (ParseProjectConfiguration bLine d) g sc).hasActive = true
        ∧ (ConfigOf (ParseProjectConfiguration bLine d) g sc).projectBuildType
            = (SplitConfig rB).1
        ∧ (ConfigOf (ParseProjectConfiguration bLine d) g sc).projectPlatform
            = (SplitConfig rB).2
        ∧ (ConfigOf (ParseProjectConfiguration dLine (ParseProjectConfiguration bLine d)) g sc).projectBuildType
            = (ConfigOf (ParseProjectConfiguration bLine d) g sc).projectBuildType
        ∧ (ConfigOf (ParseProjectConfiguration dLine (ParseProjectConfiguration bLine d)) g sc).projectPlatform
            = (ConfigOf (ParseProjectConfiguration bLine d) g sc).projectPlatform))
      ∧ (∀ (d : SolutionData) (line : Str) (g sc suf : Str),
          DecomposeProjectConfigLine line = some (g, sc, suf, []) →
          (StartsWith suf (str ("Build")) = true ∨ StartsWith suf (str ("Deploy")) = true) →
          ((ConfigOf (ParseProjectConfiguration line d) g sc).projectBuildType
              = (ConfigOf d g sc).projectBuildType
            ∧ (ConfigOf (ParseProjectConfiguration line d) g sc).projectPlatform
              = (ConfigOf d g sc).projectPlatform
            ∧ (ConfigOf (ParseProjectConfiguration line d) g sc).hasActive
              = (ConfigOf d g sc).hasActive)) := by
  constructor
  · intro d bLine dLine g sc sufB sufD rB rD hdb hsb hrb hdd hsd hany hact
    have hb := ConfigOf_PPC bLine d g g sc sc sufB rB hdb hany
    rw [if_pos ⟨rfl, rfl⟩] at hb
    have hpop := Apply_build_populates sufB rB (ConfigOf d g sc) (Or.inl hsb) hrb hact
    have hact1 : (ConfigOf (ParseProjectConfiguration bLine d) g sc).hasActive = true := by
      rw [hb]
      exact hpop.2.2
    have hany1 : (ParseProjectConfiguration bLine d).projects.any (fun p => p.guid = g)
        = true := by
      rw [any_guid_of_map_eq (PPC_projects_guid bLine d) g]
      exact hany
    have hd2 := ConfigOf_PPC dLine (ParseProjectConfiguration bLine d) g g sc sc sufD rD
      hdd hany1
    rw [if_pos ⟨rfl, rfl⟩] at hd2
    have hkeep := Apply_build_keeps sufD rD (ConfigOf (ParseProjectConfiguration bLine d) g sc)
      hact1 (Or.inr hsd)
    refine ⟨hact1, ?_, ?_, ?_, ?_⟩
    · rw [hb]
      exact hpop.1
    · rw [hb]
      exact hpop.2.1
    · rw [hd2]
      exact hkeep.1
    · rw [hd2]
      exact hkeep.2.1
  · intro d line g sc suf hd hsuf
    cases hany : d.projects.any (fun p => p.guid = g) with
    | false =>
      rw [ConfigOf_projects_eq (PPC_projects_not_found line d g sc suf [] hd hany) g sc]
      exact ⟨rfl, rfl, rfl⟩
    | true =>
      have h := ConfigOf_PPC line d g g sc sc suf [] hd hany
      rw [if_pos ⟨rfl, rfl⟩] at h
      have hkeep := Apply_empty_keeps suf (ConfigOf d g sc) hsuf
      rw [h]
      exact hkeep

theorem c10_build_deploy_guard_witness :
    (ConfigOf (ParseProjectConfiguration (str ("\x7bG\x7d.Debug|x64.Build = Release|ARM"))
        { projects := [{ guid := str ("\x7bG\x7d") }] })
      (str ("\x7bG\x7d")) (str ("Debug|x64"))).hasActive = true :=
  (c10_build_deploy_guard.1 { projects := [{ guid := str ("\x7bG\x7d") }] }
    (str ("\x7bG\x7d.Debug|x64.Build = Release|ARM"))
    (str ("\x7bG\x7d.Debug|x64.Deploy = Other|Thing"))
    (str ("\x7bG\x7d")) (str ("Debug|x64")) (str ("Build")) (str ("Deploy"))
    (str ("Release|ARM")) (str ("Other|Thing"))
    (by rfl) (by rfl) (by decide) (by rfl) (by rfl) (by rfl) (by rfl)).1

/-! The post-pass (claim C6). -/

theorem PostPassMapping_flags (m : ProjectConfigMapping)
    (h : (PostPassMapping m).hasActive = true) :
    (PostPassMapping m).buildSet = true ∧ (PostPassMapping m).deploySet = true := by
  unfold PostPassMapping at h ⊢
  by_cases h1 : m.hasActive = true
  · by_cases h2 : m.buildSet = true <;> by_cases h3 : m.deploySet = true <;>
      simp [h1, h2, h3]
  · simp only [h1, if_neg, Bool.false_eq_true, not_false_eq_true] at h

/-- C6: after the post-pass every mapping with an active configuration
has determinate `buildSet` / `deploySet`, and a flag that was never set
in the input defaults to `false`. -/
theorem c6_postpass_flags :
    (∀ (lines : List Str), ∀ p ∈ (ParseSln lines).projects, ∀ kv ∈ p.configMap,
        kv.2.hasActive = true → kv.2.buildSet = true ∧ kv.2.deploySet = true)
      ∧ (∀ m : ProjectConfigMapping, m.hasActive = true →
          ((m.buildSet = false →
              (PostPassMapping m).build = false ∧ (PostPassMapping m).buildSet = true)
            ∧ (m.deploySet = false →
              (PostPassMapping m).deploy = false ∧ (PostPassMapping m).deploySet = true))) := by
  constructor
  · intro lines p hp kv hkv hact
    unfold ParseSln PostPass at hp
    simp only [List.mem_map] at hp
    obtain ⟨q, hq, hpq⟩ := hp
    subst hpq
    simp only [List.mem_map] at hkv
    obtain ⟨kv0, hkv0, hkvq⟩ := hkv
    subst hkvq
    exact PostPassMapping_flags kv0.2 hact
  · intro m hact
    constructor
    · intro hbs
      unfold PostPassMapping
      by_cases h3 : m.deploySet = true <;> simp [hact, hbs, h3]
    · intro hds
      unfold PostPassMapping
      by_cases h2 : m.buildSet = true <;> simp [hact, hds, h2]

theorem c6_postpass_flags_witness :
    ({ projectBuildType := str ("Debug"), projectPlatform := str ("x64"),
       hasActive := true, build := false, buildSet := true, deploy := false,
       deploySet := true } : ProjectConfigMapping).buildSet = true
      ∧ ({ projectBuildType := str ("Debug"), projectPlatform := str ("x64"),
           hasActive := true, build := false, buildSet := true, deploy := false,
           deploySet := true } : ProjectConfigMapping).deploySet = true :=
  c6_postpass_flags.1 c1Lines ((ParseSln c1Lines).projects.headD {}) (by decide)
    (str ("Debug|x64"),
      { projectBuildType := str ("Debug"), projectPlatform := str ("x64"),
        hasActive := true, build := false, buildSet := true, deploy := false,
        deploySet := true })
    (by decide) (by rfl)

/-! The section-state parser's line handling (claims C5 and C9). -/

/-- C5 (amended): while inside a `ProjectDependencies` section (and the
line is no section delimiter), a line containing an equals sign is split
once on it and the trimmed left side, when non-empty, is appended to the
current project's dependency list; a line without any equals sign, and a
line whose trimmed left side is empty, leave the parser state unchanged
(they are dropped, not appended). -/
theorem c5_dependencies_split_on_equals :
    ∀ (st : ParseState) (line : Str),
      st.inProject = true → st.inProjectDependencies = true →
      Trim line ≠ [] →
      StartsWith (Trim line) (str ("ProjectSection(")) = false →
      StartsWith (Trim line) (str ("EndProjectSection")) = false →
      StartsWith (Trim line) (str ("EndProject")) = false →
      ((SplitOnce (Trim line) '=' = [Trim line] → StepLine st line = st)
        ∧ (∀ l r : Str, SplitOnce (Trim line) '=' = [l, r] → Trim l = [] →
            StepLine st line = st)
        ∧ (∀ l r : Str, SplitOnce (Trim line) '=' = [l, r] → Trim l ≠ [] →
            StepLine st line =
              { st with data :=
                  { st.data with
                      projects :=
                        updateLast
                          (fun p => { p with dependencies := p.dependencies ++ [Trim l] })
                          st.data.projects } })) := by
  intro st line hin hdeps hne h1 h2 h3
  refine ⟨?_, ?_, ?_⟩
  · intro hsplit
    unfold StepLine
    simp [hin, hdeps, hne, h1, h2, h3, hsplit]
  · intro l r hsplit hl
    unfold StepLine
    simp [hin, hdeps, hne, h1, h2, h3, hsplit, hl]
  · intro l r hsplit hl
    unfold StepLine
    simp [hin, hdeps, hne, h1, h2, h3, hsplit, hl]

theorem c5_dependencies_split_on_equals_witness :
    (StepLine { data := {}, inProject := true, inProjectDependencies := true }
        (str ("X = Y"))).data.projects = [] := by
  rw [(c5_dependencies_split_on_equals
      { data := {}, inProject := true, inProjectDependencies := true }
      (str ("X = Y")) rfl rfl (by decide) (by rfl) (by rfl) (by rfl)).2.2
    (str ("X ")) (str (" Y")) (by rfl) (by decide)]
  rfl

/-- C9: the parser is total by construction (`ParseSln` is a function on
line sequences), and malformed content is dropped silently: a
non-matching project header line changes nothing; a configuration line
without the separator structure changes nothing; a configuration line
whose identifier matches no project leaves the projects untouched; a
line inside an unrecognized global section changes nothing; and folder
resolution (cyclic nesting edges included) always produces a result. -/
theorem c9_parser_permissive :
    (∀ (st : ParseState) (line : Str),
        st.inProject = false →
        StartsWith (Trim line) (str ("Project(")) = true →
        ParseProjectHeader (Trim line) = none →
        StepLine st line = st)
      ∧ (∀ (line : Str) (data : SolutionData),
          DecomposeProjectConfigLine line = none →
          ParseProjectConfiguration line data = data)
      ∧ (∀ (line : Str) (data : SolutionData) (g sc suf r : Str),
          DecomposeProjectConfigLine line = some (g, sc, suf, r) →
          data.projects.any (fun p => p.guid = g) = false →
          (ParseProjectConfiguration line data).projects = data.projects)
      ∧ (∀ (st : ParseState) (line : Str),
          st.inProject = false → st.inGlobalSection = true →
          Trim line ≠ [] →
          StartsWith (Trim line) (str ("Project(")) = false →
          StartsWith (Trim line) (str ("GlobalSection(")) = false →
          StartsWith (Trim line) (str ("EndGlobalSection")) = false →
          st.currentGlobalSection ≠ str ("SolutionConfigurationPlatforms") →
          st.currentGlobalSection ≠ str ("ProjectConfigurationPlatforms") →
          st.currentGlobalSection ≠ str ("NestedProjects") →
          StepLine st line = st)
      ∧ (∀ (data : SolutionData) (g : Str),
          (ResolveFolderPath (data.nestedProjects.length + 1) g data [] []).isSome = true) := by
  refine ⟨?_, ?_, ?_, ?_, ?_⟩
  · intro st line hin hsw hnone
    by_cases hne : Trim line = []
    · unfold StepLine
      simp [hne]
    · unfold StepLine
      simp [hin, hsw, hnone, hne]
  · exact fun line data hd => PPC_none line data hd
  · exact fun line data g sc suf r hd hany =>
      PPC_projects_not_found line data g sc suf r hd hany
  · intro st line hin hglob hne h1 h2 h3 hn1 hn2 hn3
    unfold StepLine
    simp [hin, hglob, hne, h1, h2, h3, hn1, hn2, hn3]
  · exact fun data g => resolveTop_isSome data g

theorem c9_parser_permissive_witness :
    StepLine ({} : ParseState) (str ("Project(BAD")) = ({} : ParseState) :=
  c9_parser_permissive.1 {} (str ("Project(BAD")) rfl (by rfl) (by rfl)

/-! The output assembler's folder nodes (claim C4). -/

theorem FilesLoop_pairwise (data : SolutionData) :
    ∀ (entries : List (Str × ProjectEntry)) (acc : List (Str × Str) × List (Str × List Str)),
      List.Pairwise (fun x y => strLt x y = true) (acc.2.map Prod.fst) →
      List.Pairwise (fun x y => strLt x y = true)
        ((entries.foldl (FilesStep data) acc).2.map Prod.fst)
  | [], _, h => h
  | e :: es, acc, h =>
    FilesLoop_pairwise data es (FilesStep data acc e)
      (mapSet_keys_pairwise _ _ h)

theorem FilesLoop_mem (data : SolutionData) (Q : Str × List Str → Prop) :
    ∀ (entries : List (Str × ProjectEntry)) (acc : List (Str × Str) × List (Str × List Str)),
      (∀ kv ∈ acc.2, Q kv) →
      (∀ e ∈ entries, ∀ cache : List (Str × Str),
        Q ((ResolveFolderPathTop e.1 data cache).1, e.2.solutionItems)) →
      ∀ kv ∈ (entries.foldl (FilesStep data) acc).2, Q kv
  | [], _, hacc, _, kv, hkv => hacc kv hkv
  | e :: es, acc, hacc, hent, kv, hkv =>
    FilesLoop_mem data Q es (FilesStep data acc e)
      (fun kv' hkv' => by
        rcases mem_mapSet hkv' with h | h
        · subst h
          exact hent e (List.mem_cons_self e es) acc.1
        · exact hacc kv' h)
      (fun e' he' cache => hent e' (List.mem_cons_of_mem e he') cache) kv hkv

theorem GroupLoop_mem (data : SolutionData) :
    ∀ (ps : List ProjectEntry)
      (acc : List (Str × Str) × List (Str × List ProjectEntry) × List (Str × ProjectEntry)),
      (∀ gp ∈ acc.2.2, gp.2 ∈ data.projects ∧ gp.2.isSolutionFolder = true) →
      (∀ p ∈ ps, p ∈ data.projects) →
      ∀ gp ∈ (ps.foldl (GroupStep data) acc).2.2,
        gp.2 ∈ data.projects ∧ gp.2.isSolutionFolder = true
  | [], _, hacc, _, gp, hgp => hacc gp hgp
  | p :: ps, acc, hacc, hps, gp, hgp =>
    GroupLoop_mem data ps (GroupStep data acc p)
      (fun gp' hgp' => by
        unfold GroupStep at hgp'
        by_cases hf : p.isSolutionFolder = true
        · simp only [hf, if_pos] at hgp'
          rcases mem_aInsert hgp' with h | h
          · subst h
            exact ⟨hps p (List.mem_cons_self p ps), hf⟩
          · exact hacc gp' h
        · simp only [hf, if_neg, Bool.false_eq_true, not_false_eq_true] at hgp'
          cases halo : alookup data.nestedProjects p.guid with
          | some parent =>
            simp only [halo] at hgp'
            exact hacc gp' hgp'
          | none =>
            simp only [halo] at hgp'
            exact hacc gp' hgp')
      (fun q hq => hps q (List.mem_cons_of_mem p hq)) gp hgp

/-- C4 (amended): the `Folder` nodes of the output are exactly one per
entry of the `filesByFolder` map, whose keys are the resolved paths of
solution-folder entries, in strictly ascending lexicographic order; each
folder node holds that folder's files, then the projects grouped under
that path (`MkFolderNode`).  A path under which only non-folder projects
were grouped has no `filesByFolder` entry and therefore gets no `Folder`
node (its projects are dropped from the output). -/
theorem c4_folder_nodes_from_folder_entries :
    ∀ data : SolutionData,
      ((WriteSlnx data).children.filter (fun n => decide (n.tag = str ("Folder")))
          = (FilesLoop data (GroupLoop data).1 (GroupLoop data).2.2).2.map
              (MkFolderNode data (GroupLoop data).2.1))
        ∧ List.Pairwise (fun x y => strLt x y = true)
            ((FilesLoop data (GroupLoop data).1 (GroupLoop data).2.2).2.map Prod.fst)
        ∧ (∀ kv ∈ (FilesLoop data (GroupLoop data).1 (GroupLoop data).2.2).2,
            ∃ gp ∈ (GroupLoop data).2.2,
              (∃ cache : List (Str × Str), kv.1 = (ResolveFolderPathTop gp.1 data cache).1)
                ∧ kv.2 = gp.2.solutionItems)
        ∧ (∀ gp ∈ (GroupLoop data).2.2,
            gp.2 ∈ data.projects ∧ gp.2.isSolutionFolder = true) := by
  intro data
  refine ⟨?_, ?_, ?_, ?_⟩
  · have hsplit : (WriteSlnx data).children
        = (AppendBuildTypesAndPlatforms data
            ++ (FilesLoop data (GroupLoop data).1 (GroupLoop data).2.2).2.map
                (MkFolderNode data (GroupLoop data).2.1))
            ++ ((alookup (GroupLoop data).2.1 (str ("/"))).getD []).map
                (fun p => AppendProjectXml p data) := by rfl
    rw [hsplit, List.filter_append, List.filter_append]
    have hconf : (AppendBuildTypesAndPlatforms data).filter
        (fun n => decide (n.tag = str ("Folder"))) = [] := by
      unfold AppendBuildTypesAndPlatforms
      split
      · rfl
      · rfl
    have hfold : ((FilesLoop data (GroupLoop data).1 (GroupLoop data).2.2).2.map
          (MkFolderNode data (GroupLoop data).2.1)).filter
        (fun n => decide (n.tag = str ("Folder")))
        = (FilesLoop data (GroupLoop data).1 (GroupLoop data).2.2).2.map
            (MkFolderNode data (GroupLoop data).2.1) := by
      rw [List.filter_eq_self]
      intro a ha
      obtain ⟨e, he, hea⟩ := List.mem_map.mp ha
      subst hea
      rfl
    have hroot : (((alookup (GroupLoop data).2.1 (str ("/"))).getD []).map
          (fun p => AppendProjectXml p data)).filter
        (fun n => decide (n.tag = str ("Folder"))) = [] := by
      rw [List.filter_eq_nil_iff]
      intro a ha
      obtain ⟨q, hq, hqa⟩ := List.mem_map.mp ha
      subst hqa
      exact fun h => Bool.noConfusion (show (false : Bool) = true from h)
    rw [hconf, hfold, hroot, List.nil_append, List.append_nil]
  · exact FilesLoop_pairwise data (GroupLoop data).2.2 ((GroupLoop data).1, [])
      List.Pairwise.nil
  · exact FilesLoop_mem data
      (fun kv => ∃ gp ∈ (GroupLoop data).2.2,
        (∃ cache : List (Str × Str), kv.1 = (ResolveFolderPathTop gp.1 data cache).1)
          ∧ kv.2 = gp.2.solutionItems)
      (GroupLoop data).2.2 ((GroupLoop data).1, [])
      (fun kv hkv => absurd hkv (List.not_mem_nil kv))
      (fun e he cache => ⟨e, he, ⟨cache, rfl⟩, rfl⟩)
  · exact GroupLoop_mem data data.projects ([], [], [])
      (fun gp hgp => absurd hgp (List.not_mem_nil gp))
      (fun p hp => hp)

theorem c4_folder_nodes_from_folder_entries_witness :
    ∃ gp ∈ (GroupLoop (ParseSln c1Lines)).2.2,
      (∃ cache : List (Str × Str),
        (str ("/Src/")) = (ResolveFolderPathTop gp.1 (ParseSln c1Lines) cache).1)
        ∧ ([] : List Str) = gp.2.solutionItems :=
  (c4_folder_nodes_from_folder_entries (ParseSln c1Lines)).2.2.1
    (str ("/Src/"), ([] : List Str)) (by decide)

end GotoSlnx
